import Mathlib

/-!
# Verification of the deep-agent streaming chat route

Shallow embedding of the event-streaming translation layer of the deep-agent
repository (`src/agent/services/api/routes/chat.py`, `routes/utils.py`) and
theorems checking the specification's claims about it.

Conventions:
* Python strings are Lean `String`s; character-level operations go through
  `String.data` (a `List Char`), matching Python's per-character indexing.
* Python `str.find` returns `-1` on failure, so the embedded `pyFindFrom`
  returns `Int`.
* `json.loads` is embedded as a fuel-based executable parser `jsonLoads`
  returning `Option Json`; `none` models `json.JSONDecodeError`.
* Async generators are embedded as functions from the list of upstream events
  to the list of yielded frames; an upstream exception mid-iteration is
  modelled by cutting the run off before the code that follows the loop
  (Python does not run statements after a `for` whose iterator raised).
-/

namespace DeepAgent

/-! ## Python string primitives -/

/-- The single-quote character `'` (written via its code point). -/
def sq : String := String.mk [Char.ofNat 39]

/-- Whitespace for Python `str.strip()` (ASCII whitespace; exotic Unicode
whitespace is not needed by any claim and is not modelled). -/
def isPyWs (c : Char) : Bool :=
  c == ' ' || c == '\t' || c == '\n' || c == '\r' || c == '\x0b' || c == '\x0c'

/-- Python `s.strip()`. -/
def pyStrip (s : String) : String :=
  String.mk (((s.data.dropWhile isPyWs).reverse.dropWhile isPyWs).reverse)

/-- Python `s.startswith(p)`. -/
def pyStartsWith (s p : String) : Bool :=
  p.data.isPrefixOf s.data

/-- Python `s.find(sub, start)`: the least index `i ≥ start` at which `sub`
occurs in `s`, or `-1` if there is none. -/
def pyFindFrom (s sub : String) (start : Nat) : Int :=
  match (List.range (s.data.length + 1)).find?
      (fun i => decide (start ≤ i) && sub.data.isPrefixOf (s.data.drop i)) with
  | some i => (i : Int)
  | none => -1

/-- Python `sub in s`. -/
def containsSub (s sub : String) : Bool :=
  decide (0 ≤ pyFindFrom s sub 0)

/-- Python `s[a:b]` for `0 ≤ a`, `0 ≤ b`. -/
def pySlice (s : String) (a b : Nat) : String :=
  String.mk ((s.data.drop a).take (b - a))

/-- Python `s[:n]`. -/
def strTake (s : String) (n : Nat) : String :=
  String.mk (s.data.take n)

/-! ## JSON values (the result of `json.loads`)

Numbers: integer literals are carried exactly as `Int`; float literals are
carried as their source token (their exact Python float formatting is not
re-modelled — no claim depends on float rendering). -/

inductive Json where
  | null
  | bool (b : Bool)
  | intNum (n : Int)
  | floatNum (tok : String)
  | str (s : String)
  | arr (xs : List Json)
  | obj (kvs : List (String × Json))

/-- Lookup in a parsed JSON object, as in a Python dict built by `json.loads`:
when a key occurs more than once the last occurrence wins. -/
def objGet (kvs : List (String × Json)) (key : String) : Option Json :=
  match kvs with
  | [] => none
  | (k, v) :: rest =>
    match objGet rest key with
    | some r => some r
    | none => if k = key then some v else none

/-! ## Python `str()` / `repr()` of parsed JSON values

`str(x)` for a string is the string itself; for containers it is the Python
`repr` rendering (single-quoted strings, `True`/`False`/`None`).  Exotic
`repr` escapes (`\xNN` for control characters, surrogates) are not modelled;
the common escapes `\\`, the quote, `\n`, `\r`, `\t` are. -/

def pyReprChar (q c : Char) : List Char :=
  if c = '\\' then ['\\', '\\']
  else if c = q then ['\\', q]
  else if c = '\n' then ['\\', 'n']
  else if c = '\r' then ['\\', 'r']
  else if c = '\t' then ['\\', 't']
  else [c]

/-- Python `repr` of a string: single quotes, unless the string contains a
single quote and no double quote (then double quotes). -/
def pyReprStr (s : String) : String :=
  let q := if s.data.contains (Char.ofNat 39) && !(s.data.contains '"')
           then '"' else Char.ofNat 39
  String.mk (q :: s.data.foldr (fun c acc => pyReprChar q c ++ acc) [q])

mutual

def pyRepr : Json → String
  | .null => "None"
  | .bool true => "True"
  | .bool false => "False"
  | .intNum n => toString n
  | .floatNum tok => tok
  | .str s => pyReprStr s
  | .arr xs => "[" ++ pyReprList xs ++ "]"
  | .obj kvs => "\x7b" ++ pyReprPairs kvs ++ "\x7d"

def pyReprList : List Json → String
  | [] => ""
  | [x] => pyRepr x
  | x :: xs => pyRepr x ++ ", " ++ pyReprList xs

def pyReprPairs : List (String × Json) → String
  | [] => ""
  | [(k, v)] => pyReprStr k ++ ": " ++ pyRepr v
  | (k, v) :: kvs => pyReprStr k ++ ": " ++ pyRepr v ++ ", " ++ pyReprPairs kvs

end

/-- Python `str()` of a value produced by `json.loads`. -/
def pyStr : Json → String
  | .str s => s
  | j => pyRepr j

/-! ## `json.loads`, as a fuel-based executable parser

JSON whitespace is ` \t\n\r`.  Strings support the standard escapes and
`\uXXXX` (surrogate-pair recombination is not modelled).  Numbers follow the
JSON grammar (no leading zeros, optional fraction/exponent).  `NaN`/`Infinity`
extensions are not modelled.  `none` models `json.JSONDecodeError`. -/

def isJWs (c : Char) : Bool :=
  c == ' ' || c == '\t' || c == '\n' || c == '\r'

def hexVal (c : Char) : Option Nat :=
  if '0' ≤ c ∧ c ≤ '9' then some (c.toNat - 48)
  else if 'a' ≤ c ∧ c ≤ 'f' then some (c.toNat - 87)
  else if 'A' ≤ c ∧ c ≤ 'F' then some (c.toNat - 55)
  else none

def escChar (c : Char) : Option Char :=
  if c = '"' then some '"'
  else if c = '\\' then some '\\'
  else if c = '/' then some '/'
  else if c = 'b' then some (Char.ofNat 8)
  else if c = 'f' then some (Char.ofNat 12)
  else if c = 'n' then some '\n'
  else if c = 'r' then some '\r'
  else if c = 't' then some '\t'
  else none

/-- Parse the body of a JSON string (the opening quote already consumed). -/
def parseJStr : Nat → List Char → Option (List Char × List Char)
  | 0, _ => none
  | _, [] => none
  | fuel + 1, c :: cs =>
    if c = '"' then some ([], cs)
    else if c = '\\' then
      match cs with
      | [] => none
      | e :: cs' =>
        if e = 'u' then
          match cs' with
          | h1 :: h2 :: h3 :: h4 :: cs'' =>
            match hexVal h1, hexVal h2, hexVal h3, hexVal h4 with
            | some a, some b, some c3, some d =>
              (parseJStr fuel cs'').map
                (fun r => (Char.ofNat (((a * 16 + b) * 16 + c3) * 16 + d) :: r.1, r.2))
            | _, _, _, _ => none
          | _ => none
        else
          match escChar e with
          | some ec => (parseJStr fuel cs').map (fun r => (ec :: r.1, r.2))
          | none => none
    else if c.toNat < 32 then none
    else (parseJStr fuel cs).map (fun r => (c :: r.1, r.2))

def digitsToNat (l : List Char) : Nat :=
  l.foldl (fun a c => a * 10 + (c.toNat - 48)) 0

/-- Parse a JSON number starting at the given characters. -/
def parseNum (cs : List Char) : Option (Json × List Char) :=
  let (neg, cs1) := match cs with
    | '-' :: t => (true, t)
    | _ => (false, cs)
  let intPart := cs1.takeWhile Char.isDigit
  let cs2 := cs1.dropWhile Char.isDigit
  if intPart = [] then none
  else if intPart.length > 1 ∧ intPart.head? = some '0' then none
  else
    let (fracPart, cs3) := match cs2 with
      | '.' :: t =>
        let ds := t.takeWhile Char.isDigit
        if ds = [] then (none, cs2) else (some ('.' :: ds), t.dropWhile Char.isDigit)
      | _ => (none, cs2)
    if cs3 ≠ cs2 ∨ fracPart = none then
      -- either a valid fraction was consumed, or there was no '.' at all
      let (expPart, cs4) := match cs3 with
        | e :: t =>
          if e = 'e' ∨ e = 'E' then
            let (sgn, t1) := match t with
              | '+' :: t' => (['+'], t')
              | '-' :: t' => (['-'], t')
              | _ => (([] : List Char), t)
            let ds := t1.takeWhile Char.isDigit
            if ds = [] then (none, cs3)
            else (some (e :: (sgn ++ ds)), t1.dropWhile Char.isDigit)
          else (none, cs3)
        | [] => (none, cs3)
      match fracPart, expPart with
      | none, none =>
        let n : Int := (digitsToNat intPart : Int)
        some (.intNum (if neg then -n else n), cs4)
      | f, ex =>
        let tok := (if neg then ['-'] else []) ++ intPart ++
          (f.getD []) ++ (ex.getD [])
        some (.floatNum (String.mk tok), cs4)
    else none

mutual

def parseVal : Nat → List Char → Option (Json × List Char)
  | 0, _ => none
  | fuel + 1, cs0 =>
    match cs0.dropWhile isJWs with
    | [] => none
    | '"' :: rest =>
      (parseJStr (rest.length + 1) rest).map (fun r => (Json.str (String.mk r.1), r.2))
    | '[' :: rest =>
      (match rest.dropWhile isJWs with
       | ']' :: r => some (Json.arr [], r)
       | cs1 => (parseArrItems fuel cs1).map (fun r => (Json.arr r.1, r.2)))
    | '\x7b' :: rest =>
      (match rest.dropWhile isJWs with
       | '\x7d' :: r => some (Json.obj [], r)
       | cs1 => (parseObjItems fuel cs1).map (fun r => (Json.obj r.1, r.2)))
    | 't' :: 'r' :: 'u' :: 'e' :: rest => some (.bool true, rest)
    | 'f' :: 'a' :: 'l' :: 's' :: 'e' :: rest => some (.bool false, rest)
    | 'n' :: 'u' :: 'l' :: 'l' :: rest => some (.null, rest)
    | c :: rest =>
      if c = '-' ∨ c.isDigit then parseNum (c :: rest) else none

def parseArrItems : Nat → List Char → Option (List Json × List Char)
  | 0, _ => none
  | fuel + 1, cs =>
    match parseVal fuel cs with
    | none => none
    | some (v, r) =>
      match r.dropWhile isJWs with
      | ',' :: r2 => (parseArrItems fuel r2).map (fun p => (v :: p.1, p.2))
      | ']' :: r2 => some ([v], r2)
      | _ => none

def parseObjItems : Nat → List Char → Option (List (String × Json) × List Char)
  | 0, _ => none
  | fuel + 1, cs =>
    match cs with
    | '"' :: rest =>
      (match parseJStr (rest.length + 1) rest with
       | none => none
       | some (k, r) =>
         match r.dropWhile isJWs with
         | ':' :: r2 =>
           (match parseVal fuel r2 with
            | none => none
            | some (v, r3) =>
              match r3.dropWhile isJWs with
              | ',' :: r4 =>
                (parseObjItems fuel (r4.dropWhile isJWs)).map
                  (fun p => ((String.mk k, v) :: p.1, p.2))
              | '\x7d' :: r4 => some ([(String.mk k, v)], r4)
              | _ => none)
         | _ => none)
    | _ => none

end

/-- `json.loads(s)`: parse one value, require only whitespace after it. -/
def jsonLoads (s : String) : Option Json :=
  match parseVal (4 * s.data.length + 8) s.data with
  | some (j, rest) => if rest.dropWhile isJWs = [] then some j else none
  | none => none

/-! ## The Result Normalizer: `clean_tool_result` (chat.py lines 55–78) -/

/-- The sub-marker searched for inside a `Command(...)` wrapper. -/
def toolMsgMarker : String := "ToolMessage(content="

/-- chat.py lines 59–65: the branch for output starting with `Command(`.
`start = output.find(sq, output.find(marker)) + 1`; `end = output.find(sq, start)`;
return `output[start:end]` when `end > start`, else the completed sentinel. -/
def commandCase (output : String) : String :=
  if containsSub output toolMsgMarker then
    let start : Int := pyFindFrom output sq (pyFindFrom output toolMsgMarker 0).toNat + 1
    let e : Int := pyFindFrom output sq start.toNat
    if e > start then pySlice output start.toNat e.toNat
    else "✓ completed"
  else "✓ completed"

/-- chat.py lines 70–74: the successful-parse case of the JSON branch.
`for key in ("content", "message"): if key in data: return str(data[key])[:200]`,
else the completed sentinel (also for non-dict parses). -/
def jsonDictCase (data : Json) : String :=
  match data with
  | .obj kvs =>
    (match objGet kvs "content" with
     | some v => strTake (pyStr v) 200
     | none =>
       match objGet kvs "message" with
       | some v => strTake (pyStr v) 200
       | none => "✓ completed")
  | _ => "✓ completed"

/-- chat.py lines 55–78: `clean_tool_result`.  On `json.JSONDecodeError` the
source does `pass` and falls through to the final `return output`. -/
def cleanToolResult (output : String) : String :=
  if output = "" ∨ pyStrip output = "" then "✓ completed"
  else if pyStartsWith output "Command(" then commandCase output
  else if pyStartsWith output "\x7b" ∨ pyStartsWith output "[" then
    match jsonLoads output with
    | some data => jsonDictCase data
    | none => output
  else output

/-! ## Totality of the normalizer, with the fallible steps made explicit

`cleanToolResultE` is the same computation in an exception monad: `json.loads`
is the one sub-operation that can raise, and the source catches exactly
`json.JSONDecodeError`.  The short-circuit `not output or not output.strip()`
means `.strip()` is never called on `None`. -/

inductive PyExc where
  | jsonDecodeError
deriving DecidableEq

def jsonLoadsE (s : String) : Except PyExc Json :=
  match jsonLoads s with
  | some j => .ok j
  | none => .error .jsonDecodeError

/-- `clean_tool_result` over `Option String` (`none` models Python `None`),
with the raising/catching structure explicit. -/
def cleanToolResultE (output : Option String) : Except PyExc String :=
  match output with
  | none => .ok "✓ completed"
  | some out =>
    if out = "" ∨ pyStrip out = "" then .ok "✓ completed"
    else if pyStartsWith out "Command(" then .ok (commandCase out)
    else if pyStartsWith out "\x7b" ∨ pyStartsWith out "[" then
      match jsonLoadsE out with
      | .ok data => .ok (jsonDictCase data)
      | .error .jsonDecodeError => .ok out
    else .ok out

/-! ## `truncate`, `html.escape`, `format_tool_result` (chat.py lines 51–83) -/

/-- chat.py lines 51–52: `text[:max_len] + "..." if len(text) > max_len else text`. -/
def truncate (text : String) (max_len : Nat) : String :=
  if text.data.length > max_len then strTake text max_len ++ "..." else text

/-- `html.escape` with the default `quote=True`. -/
def htmlEscapeChar (c : Char) : String :=
  if c = '&' then "&amp;"
  else if c = '<' then "&lt;"
  else if c = '>' then "&gt;"
  else if c = '"' then "&quot;"
  else if c = Char.ofNat 39 then "&#x27;"
  else String.mk [c]

def htmlEscape (s : String) : String :=
  s.data.foldr (fun c acc => htmlEscapeChar c ++ acc) ""

/-- chat.py lines 81–83. -/
def formatToolResult (name result : String) : String :=
  "**🔧 " ++ name ++ ":** " ++ htmlEscape (truncate (cleanToolResult result) 200) ++ "\n\n"

/-! ## `extract_text_content` (chat.py lines 86–97) -/

/-- One element of a list-shaped chunk content: a dict with `type == "text"`
(carrying its `text` field, defaulted to `""`), a plain string, or anything
else (skipped by the source). -/
inductive ChunkBlock where
  | textBlock (s : String)
  | strBlock (s : String)
  | otherBlock
deriving DecidableEq

/-- The `content` attribute of a streamed chunk: a string, a list of blocks,
or any other shape (mapped to `""`). -/
inductive ChunkContent where
  | str (s : String)
  | list (bs : List ChunkBlock)
  | other
deriving DecidableEq

def extract_text_content : ChunkContent → String
  | .str s => s
  | .list bs =>
    String.join (bs.map fun b =>
      match b with
      | .textBlock s => s
      | .strBlock s => s
      | .otherBlock => "")
  | .other => ""

/-! ## `generate_stream` (chat.py lines 100–207) -/

/-- The `output` field of an `on_tool_end` event: either a Python string, or a
non-string value that the source serializes with
`json.dumps(tool_output, default=str)` (carried here as its serialization). -/
inductive ToolOutput where
  | pyString (s : String)
  | nonString (dumped : String)
deriving DecidableEq

def outputStr : ToolOutput → String
  | .pyString s => s
  | .nonString d => d

/-- The upstream `astream_events` events the source inspects.  `toolStart`'s
name is `event.get("name", "tool")`, so it is optional; `toolEnd`'s output is
`event["data"].get("output", "")`, so it is optional too.  All other event
kinds match no branch of the source's `if`/`elif` chain. -/
inductive UpEvent where
  | chatModelStream (chunk : ChunkContent)
  | toolStart (runId : String) (name : Option String)
  | toolEnd (runId : String) (output : Option ToolOutput)
  | otherEvent
deriving DecidableEq

/-- A frame yielded by `generate_stream`: `Frame.content s` is
`json.dumps({"content": s})`, `Frame.done` is `json.dumps({"done": True})`. -/
inductive Frame where
  | content (s : String)
  | done
deriving DecidableEq

def collapseHeader : String :=
  "\n<details open>\n<summary>🔍 Execution Steps</summary>\n\n"

def aiMark : String := "**🤖 AI:** "

def subagentMark : String := "**🔧 Sub-agent:** "

/-- The local variables of `generate_stream` (chat.py lines 108–112).
`subagent_stack` keeps its top at the head (the Python list appends and pops
at its end). -/
structure GenState where
  current_ai_content : String
  tool_info : List (String × String)
  collapse_open : Bool
  streaming_ai : Bool
  subagent_stack : List String
deriving DecidableEq

def initState : GenState :=
  { current_ai_content := ""
    tool_info := []
    collapse_open := false
    streaming_ai := false
    subagent_stack := [] }

/-- `tool_info[run_id] = {"name": tool_name}`: dict assignment (replace the
existing binding in place, else append). -/
def setAssoc (l : List (String × String)) (k v : String) : List (String × String) :=
  match l with
  | [] => [(k, v)]
  | (k', v') :: rest => if k' = k then (k, v) :: rest else (k', v') :: setAssoc rest k v

/-- `run_id in tool_info` / `tool_info[run_id]["name"]`. -/
def lookupAssoc (l : List (String × String)) (k : String) : Option String :=
  match l with
  | [] => none
  | (k', v) :: rest => if k' = k then some v else lookupAssoc rest k

/-- The body of the `async for` loop of `generate_stream` (chat.py lines
119–196) for one upstream event: the updated locals and the frames yielded.
The conditional yields are written as list concatenations of `if`-guarded
singletons, in the source's order. -/
def stepEvent (show_tool_details : Bool) (st : GenState) (e : UpEvent) :
    GenState × List Frame :=
  match e with
  | .chatModelStream chunk =>
    let content := extract_text_content chunk
    if content = "" then (st, [])
    else
      let st1 := { st with current_ai_content := st.current_ai_content ++ content }
      if show_tool_details then
        ({ st1 with collapse_open := true, streaming_ai := true },
         (if st.collapse_open then [] else [Frame.content collapseHeader]) ++
         (if st.streaming_ai then []
          else [Frame.content (if st.subagent_stack = [] then aiMark else subagentMark)]) ++
         [Frame.content content])
      else (st1, [])
  | .toolStart runId name =>
    let tool_name := name.getD "tool"
    let st1 := { st with tool_info := setAssoc st.tool_info runId tool_name }
    let st2 :=
      if show_tool_details then
        { st1 with streaming_ai := false, current_ai_content := "", collapse_open := true }
      else st1
    let st3 :=
      if tool_name = "task" then { st2 with subagent_stack := runId :: st2.subagent_stack }
      else st2
    (st3,
     if show_tool_details then
       (if st.streaming_ai then [Frame.content "\n\n"] else []) ++
       (if st.collapse_open then [] else [Frame.content collapseHeader])
     else [])
  | .toolEnd runId output =>
    match lookupAssoc st.tool_info runId with
    | none => (st, [])
    | some tool_name =>
      let output_str := match output with
        | none => ""
        | some o => outputStr o
      if st.subagent_stack.head? = some runId then
        ({ st with subagent_stack := st.subagent_stack.tail }, [])
      else if show_tool_details then
        ({ st with streaming_ai := false, collapse_open := true },
         (if st.streaming_ai then [Frame.content "\n\n"] else []) ++
         (if st.collapse_open then [] else [Frame.content collapseHeader]) ++
         [Frame.content (formatToolResult tool_name output_str)])
      else (st, [])
  | .otherEvent => (st, [])

/-- Run the loop over a whole upstream event list. -/
def runEvents (d : Bool) (st : GenState) : List UpEvent → GenState × List Frame
  | [] => (st, [])
  | e :: es =>
    let r1 := stepEvent d st e
    let r2 := runEvents d r1.1 es
    (r2.1, r1.2 ++ r2.2)

/-- chat.py lines 198–207: the statements after the loop. -/
def finalFrames (st : GenState) : List Frame :=
  (if st.streaming_ai then [Frame.content "\n\n"] else []) ++
  (if st.collapse_open then [Frame.content "\n</details>\n\n"] else []) ++
  (if pyStrip st.current_ai_content ≠ "" then [Frame.content st.current_ai_content] else []) ++
  [Frame.done]

/-- `generate_stream` when the upstream iteration completes normally. -/
def generateStream (d : Bool) (events : List UpEvent) : List Frame :=
  let r := runEvents d initState events
  r.2 ++ finalFrames r.1

/-- `generate_stream` when iterating `astream_events` raises after the listed
events: the exception propagates out of the generator (there is no
`try`/`except` around the loop), so the statements after the loop — including
the final `yield json.dumps({"done": True})` — never run. -/
def generateStreamInterrupted (d : Bool) (events : List UpEvent) : List Frame :=
  (runEvents d initState events).2

/-! ## The typed-event Stream Translator (spec §4.1/§4.3)

Modelled from the spec: the typed-event streaming route itself is not under
src/ — only its event constructors (`routes/utils.py`, `emit_*`) and its
consumer (`openwebui/deep_agent_pipe.py`) are.  The event shapes below mirror
the `emit_*` helpers field for field; `typedOnEnd` follows spec §4.3
("invocation-end event") and §4.1 (depth read after popping for end events,
scenario D). -/

/-- One wire event, with the `data` fields of the corresponding `emit_*`
helper of routes/utils.py. -/
inductive TypedEvent where
  | statusEv (description : String) (agent_depth : Nat)
  | tool_start (tool_id name : String) (agent_depth : Nat)
  | tool_end (tool_id name result : String) (agent_depth : Nat)
  | token (content : String) (agent_depth : Nat)
  | agent_start (agent_id name : String) (depth : Nat)
  | agent_end (agent_id : String) (depth : Nat)
  | doneEv
deriving DecidableEq

/-- Modelled from the spec: the Nesting Tracker's state — the Invocation
Record mapping (run identifier to operation name; the delegation flag is
`name = "task"`) and the Delegation Stack (top at head). -/
structure TypedState where
  records : List (String × String)
  stack : List String
deriving DecidableEq

/-- Modelled from the spec (§4.1 `onStart`, §4.3 invocation-start): record the
invocation; a delegation (`name = "task"`) additionally pushes the run
identifier and emits `agent_start` at the pre-push depth, an ordinary tool
emits `tool_start` at the current depth. -/
def typedOnStart (st : TypedState) (runId name : String) : TypedState × List TypedEvent :=
  let st1 := { st with records := setAssoc st.records runId name }
  if name = "task" then
    ({ st1 with stack := runId :: st1.stack },
     [.agent_start runId name st.stack.length])
  else
    (st1, [.tool_start runId name st.stack.length])

/-- Modelled from the spec (§4.1 `onEnd`, §4.3 invocation-end): an end for an
unknown run identifier is ignored; an end for the delegation at the top of the
stack pops it and emits `agent_end` followed by `tool_end` with the normalized
result, both at the depth read after the pop (scenario D); any other end emits
a single `tool_end` at the current depth. -/
def typedOnEnd (st : TypedState) (runId rawOutput : String) : TypedState × List TypedEvent :=
  match lookupAssoc st.records runId with
  | none => (st, [])
  | some name =>
    if name = "task" ∧ st.stack.head? = some runId then
      let stack' := st.stack.tail
      ({ st with stack := stack' },
       [.agent_end runId stack'.length,
        .tool_end runId name (cleanToolResult rawOutput) stack'.length])
    else
      (st, [.tool_end runId name (cleanToolResult rawOutput) st.stack.length])

/-! ## Auxiliary facts about `String` as a list of characters -/

theorem strData_append (a b : String) : (a ++ b).data = a.data ++ b.data := by
  cases a; cases b; rfl

theorem strExt {a b : String} (h : a.data = b.data) : a = b := by
  cases a; cases b; exact congrArg String.mk h

theorem strAppend_empty (a : String) : a ++ "" = a := by
  apply strExt; rw [strData_append]; simp [String.data]

theorem strEmpty_append (a : String) : "" ++ a = a := by
  apply strExt; rw [strData_append]; simp [String.data]

theorem strAppend_assoc (a b c : String) : a ++ b ++ c = a ++ (b ++ c) := by
  apply strExt; simp [strData_append]

/-- A string whose first character is not whitespace does not strip to the
empty string. -/
theorem pyStrip_ne_empty_of_head {s : String} {c : Char} {t : List Char}
    (hs : s.data = c :: t) (hc : isPyWs c = false) : pyStrip s ≠ "" := by
  intro hcontra
  have hdata : (((s.data.dropWhile isPyWs).reverse.dropWhile isPyWs).reverse) = [] :=
    congrArg String.data hcontra
  rw [hs, List.dropWhile_cons, hc] at hdata
  simp only [Bool.false_eq_true, if_false, List.reverse_eq_nil_iff] at hdata
  have hmem : c ∈ (c :: t : List Char).reverse := by simp
  have := (List.dropWhile_eq_nil_iff.mp hdata) c hmem
  rw [hc] at this
  exact Bool.noConfusion this

/-- A string that does not strip to empty and does not start with `Command(`,
`{` or `[` is returned by `clean_tool_result` unchanged. -/
theorem clean_fixed {y : String} (h0 : pyStrip y ≠ "")
    (h1 : pyStartsWith y "Command(" = false)
    (h2 : pyStartsWith y "\x7b" = false)
    (h3 : pyStartsWith y "[" = false) :
    cleanToolResult y = y := by
  have hne : ¬(y = "" ∨ pyStrip y = "") := by
    rintro (rfl | hsy)
    · exact h0 rfl
    · exact h0 hsy
  simp [cleanToolResult, hne, h1, h2, h3]

theorem startsWith_head {s p : String} {c : Char} {cs : List Char}
    (hp : p.data = c :: cs) (h : pyStartsWith s p = true) : ∃ t, s.data = c :: t := by
  rw [pyStartsWith, hp] at h
  cases hs : s.data with
  | nil => rw [hs] at h; simp [List.isPrefixOf] at h
  | cons b bs =>
    rw [hs] at h
    simp only [List.isPrefixOf, Bool.and_eq_true, beq_iff_eq] at h
    exact ⟨bs, by rw [h.1]⟩

theorem not_startsWith_of_head {s p : String} {c c' : Char} {t cs' : List Char}
    (hs : s.data = c :: t) (hp : p.data = c' :: cs') (hne : (c' == c) = false) :
    pyStartsWith s p = false := by
  rw [pyStartsWith, hs, hp]
  simp [List.isPrefixOf, hne]

/-- Under the guards that precede it, `clean_tool_result` on a `{`/`[`-headed
input is decided by the outcome of `json.loads`. -/
theorem clean_json_core {s : String} (hne : ¬(s = "" ∨ pyStrip s = ""))
    (hcmd : pyStartsWith s "Command(" = false)
    (hjson : pyStartsWith s "\x7b" = true ∨ pyStartsWith s "[" = true) :
    cleanToolResult s =
      (match jsonLoads s with
       | some data => jsonDictCase data
       | none => s) := by
  simp [cleanToolResult, hne, hcmd, hjson]

/-- Under the guards that precede it, `clean_tool_result` on a
`Command(`-headed input is the command-envelope extraction. -/
theorem clean_command_core {s : String} (hC : pyStartsWith s "Command(" = true) :
    cleanToolResult s = commandCase s := by
  obtain ⟨t, hs⟩ := startsWith_head (show ("Command(" : String).data = 'C' :: "ommand(".data by rfl) hC
  have hne : ¬(s = "" ∨ pyStrip s = "") := by
    rintro (rfl | hstrip)
    · simp at hs
    · exact pyStrip_ne_empty_of_head hs (by decide) hstrip
  simp [cleanToolResult, hne, hC]

/-! ## Claims -/

/-- C6: `clean_tool_result` is total.  `cleanToolResultE` is the source
computation with its fallible step (`json.loads`) explicit in an exception
monad and with `None` input admitted; for every input, including `none`, the
empty string, whitespace-only strings, and arbitrarily malformed JSON text,
it returns `ok` of a string — the `try`/`except json.JSONDecodeError` covers
the only raising sub-operation, and the `not output` short-circuit protects
the `None` case from `.strip()`. -/
theorem clean_tool_result_total (x : Option String) :
    cleanToolResultE x =
      Except.ok (match x with
        | none => "✓ completed"
        | some s => cleanToolResult s) := by
  cases x with
  | none => rfl
  | some s =>
    by_cases hempty : s = "" ∨ pyStrip s = ""
    · simp [cleanToolResultE, cleanToolResult, hempty]
    · by_cases hcmd : pyStartsWith s "Command(" = true
      · simp [cleanToolResultE, cleanToolResult, hempty, hcmd]
      · by_cases hjson : pyStartsWith s "\x7b" = true ∨ pyStartsWith s "[" = true
        · cases hload : jsonLoads s <;>
            simp [cleanToolResultE, cleanToolResult, jsonLoadsE, hempty, hcmd, hjson, hload]
        · simp [cleanToolResultE, cleanToolResult, hempty, hcmd, hjson]

/-- C7 counterexample: `clean_tool_result` is not idempotent on every input.
For the input `Command(ToolMessage(content='Command(y)')` the first
application extracts the quoted payload `Command(y)`, and a second
application maps that payload (which starts with `Command(` but has no
`ToolMessage(content=` sub-marker) to `✓ completed`. -/
theorem clean_not_idempotent_counterexample :
    cleanToolResult (cleanToolResult
        ("Command(ToolMessage(content=" ++ sq ++ "Command(y)" ++ sq ++ ")")) ≠
      cleanToolResult ("Command(ToolMessage(content=" ++ sq ++ "Command(y)" ++ sq ++ ")") := by
  decide

/-- C7 amended: `clean_tool_result` is idempotent on every input whose
normalized form is the sentinel `✓ completed`, and on every input whose
normalized form has non-whitespace content and does not start with
`Command(`, `{` or `[`.  (It can fail to be idempotent when the extracted
preview itself starts with one of those markers or is whitespace-only.) -/
theorem clean_idempotent_amended (x : String)
    (h : cleanToolResult x = "✓ completed" ∨
         (pyStrip (cleanToolResult x) ≠ "" ∧
          pyStartsWith (cleanToolResult x) "Command(" = false ∧
          pyStartsWith (cleanToolResult x) "\x7b" = false ∧
          pyStartsWith (cleanToolResult x) "[" = false)) :
    cleanToolResult (cleanToolResult x) = cleanToolResult x := by
  rcases h with hdone | ⟨h0, h1, h2, h3⟩
  · rw [hdone]; decide
  · exact clean_fixed h0 h1 h2 h3

/-- C7 witness: idempotence at the plain-text input `hello`. -/
theorem clean_idempotent_amended_witness :
    cleanToolResult (cleanToolResult "hello") = cleanToolResult "hello" :=
  clean_idempotent_amended "hello" (Or.inr (by decide))

/-- C8: an `on_tool_end` event whose run identifier has no recorded
invocation-start (`run_id in tool_info` fails) matches no branch of the
loop body: no frames are yielded and every local — the invocation-record
mapping, the delegation stack and the accumulated token buffer — is
unchanged. -/
theorem tool_end_unknown_run_ignored (d : Bool) (st : GenState)
    (runId : String) (output : Option ToolOutput)
    (h : lookupAssoc st.tool_info runId = none) :
    stepEvent d st (.toolEnd runId output) = (st, []) := by
  simp [stepEvent, h]

/-- C8 witness: an end event for run `r9` in the initial state (empty
mapping) is ignored. -/
theorem tool_end_unknown_run_ignored_witness :
    stepEvent true initState (.toolEnd "r9" none) = (initState, []) :=
  tool_end_unknown_run_ignored true initState "r9" none rfl

/-- C9: the preview embedded by `format_tool_result` is bounded: it is the
normalized result hard-truncated to its first 200 characters with `...`
appended when the normalized result is longer than 200 characters, then
HTML-escaped; before escaping it never exceeds 203 characters. -/
theorem format_tool_result_preview_bounded (name result : String) :
    formatToolResult name result =
      "**🔧 " ++ name ++ ":** " ++
        htmlEscape (truncate (cleanToolResult result) 200) ++ "\n\n" ∧
    truncate (cleanToolResult result) 200 =
      (if (cleanToolResult result).data.length > 200
       then strTake (cleanToolResult result) 200 ++ "..."
       else cleanToolResult result) ∧
    (truncate (cleanToolResult result) 200).data.length ≤ 203 := by
  refine ⟨rfl, rfl, ?_⟩
  unfold truncate
  split
  · rw [strData_append]
    simp only [List.length_append, strTake]
    have h1 : ((cleanToolResult result).data.take 200).length ≤ 200 := by
      simp [List.length_take]
    have h2 : (['.', '.', '.'] : List Char).length = 3 := rfl
    omega
  · omega

/-- C4 counterexample: on an input starting with `{` that fails to parse as
JSON, `clean_tool_result` returns the raw input, not `✓ completed` — the
source's `except json.JSONDecodeError: pass` falls through to
`return output`. -/
theorem json_parse_failure_returns_raw :
    pyStartsWith "\x7boops" "\x7b" = true ∧
    jsonLoads "\x7boops" = none ∧
    cleanToolResult "\x7boops" = "\x7boops" ∧
    ("\x7boops" : String) ≠ "✓ completed" := by
  refine ⟨by decide, by rfl, by rfl, by decide⟩

/-- C4 amended: for every input string that starts with `{` or `[`: if it
parses as JSON to an object, `clean_tool_result` returns the string form of
the value of the first key among `content`, `message` present, truncated to
200 characters, and `✓ completed` when neither key is present; a successful
parse to a non-object yields `✓ completed`; a parse failure returns the raw
input verbatim (not `✓ completed`). -/
theorem clean_json_branch_amended (s : String)
    (h : pyStartsWith s "\x7b" = true ∨ pyStartsWith s "[" = true) :
    (∀ kvs, jsonLoads s = some (Json.obj kvs) →
        cleanToolResult s =
          (match objGet kvs "content" with
           | some v => strTake (pyStr v) 200
           | none =>
             match objGet kvs "message" with
             | some v => strTake (pyStr v) 200
             | none => "✓ completed")) ∧
    (∀ j, jsonLoads s = some j → (∀ kvs, j ≠ Json.obj kvs) →
        cleanToolResult s = "✓ completed") ∧
    (jsonLoads s = none → cleanToolResult s = s) := by
  have hhead : (∃ t, s.data = '\x7b' :: t) ∨ (∃ t, s.data = '[' :: t) := by
    rcases h with h | h
    · exact Or.inl (startsWith_head (show ("\x7b" : String).data = '\x7b' :: [] by rfl) h)
    · exact Or.inr (startsWith_head (show ("[" : String).data = '[' :: [] by rfl) h)
  have hne : ¬(s = "" ∨ pyStrip s = "") := by
    rcases hhead with ⟨t, hs⟩ | ⟨t, hs⟩ <;>
      · rintro (rfl | hstrip)
        · simp at hs
        · exact pyStrip_ne_empty_of_head hs (by decide) hstrip
  have hcmd : pyStartsWith s "Command(" = false := by
    rcases hhead with ⟨t, hs⟩ | ⟨t, hs⟩ <;>
      exact not_startsWith_of_head hs (show ("Command(" : String).data = 'C' :: "ommand(".data by rfl)
        (by decide)
  have hcore := clean_json_core hne hcmd h
  refine ⟨?_, ?_, ?_⟩
  · intro kvs hload
    rw [hcore, hload]
    rfl
  · intro j hload hnobj
    rw [hcore, hload]
    cases j <;> first
      | exact absurd rfl (hnobj _)
      | simp [jsonDictCase]
  · intro hload
    rw [hcore, hload]

/-- C4 witness: spec scenario B — raw output `{"content": "42"}` yields
preview `42`. -/
theorem clean_json_branch_amended_witness :
    cleanToolResult "\x7b\"content\": \"42\"\x7d" = "42" := by
  have h := (clean_json_branch_amended "\x7b\"content\": \"42\"\x7d" (Or.inl (by decide))).1
    [("content", Json.str "42")] (by rfl)
  exact h.trans (by rfl)

/-- C5 counterexample: for the `Command(`-headed input
`Command('a ToolMessage(content=` the sub-marker is present but no single
quote occurs at or after it, so Python's `find` returns `-1` and `start`
wraps to `0`; `clean_tool_result` then returns the text before the first
quote of the whole string — `Command(` — rather than `✓ completed`, and that
text is not a single-quoted payload occurring after the sub-marker. -/
theorem command_wraparound_counterexample :
    containsSub ("Command(" ++ sq ++ "a ToolMessage(content=") toolMsgMarker = true ∧
    pyFindFrom ("Command(" ++ sq ++ "a ToolMessage(content=") sq
        (pyFindFrom ("Command(" ++ sq ++ "a ToolMessage(content=") toolMsgMarker 0).toNat = -1 ∧
    cleanToolResult ("Command(" ++ sq ++ "a ToolMessage(content=") = "Command(" ∧
    ("Command(" : String) ≠ "✓ completed" := by
  refine ⟨by decide, by decide, by decide, by decide⟩

/-- C5 amended: for every input starting with `Command(`: with the sub-marker
`ToolMessage(content=` absent the result is `✓ completed`.  With the
sub-marker present, let `q1` be the first single-quote position at or after
the marker position: if `q1` exists and the next quote `q2` (at or after
`q1 + 1`) satisfies `q2 > q1 + 1`, the result is the payload `s[q1+1:q2]`;
if instead `q2 ≤ q1 + 1` (adjacent quotes or none), the result is
`✓ completed`.  If no quote occurs at or after the marker (`find` = `-1`),
the start index wraps to `0`: the result is the prefix `s[0:e]` before the
first quote `e` of the whole string when `e > 0`, and `✓ completed`
otherwise. -/
theorem clean_command_branch_amended (s : String)
    (hC : pyStartsWith s "Command(" = true) :
    (containsSub s toolMsgMarker = false → cleanToolResult s = "✓ completed") ∧
    (∀ q1 q2 : Nat,
        containsSub s toolMsgMarker = true →
        pyFindFrom s sq (pyFindFrom s toolMsgMarker 0).toNat = (q1 : Int) →
        pyFindFrom s sq (q1 + 1) = (q2 : Int) →
        q1 + 1 < q2 →
        cleanToolResult s = pySlice s (q1 + 1) q2) ∧
    (∀ q1 : Nat,
        containsSub s toolMsgMarker = true →
        pyFindFrom s sq (pyFindFrom s toolMsgMarker 0).toNat = (q1 : Int) →
        pyFindFrom s sq (q1 + 1) ≤ (q1 : Int) + 1 →
        cleanToolResult s = "✓ completed") ∧
    (∀ q2 : Nat,
        containsSub s toolMsgMarker = true →
        pyFindFrom s sq (pyFindFrom s toolMsgMarker 0).toNat = -1 →
        pyFindFrom s sq 0 = (q2 : Int) →
        0 < q2 →
        cleanToolResult s = pySlice s 0 q2) ∧
    (containsSub s toolMsgMarker = true →
        pyFindFrom s sq (pyFindFrom s toolMsgMarker 0).toNat = -1 →
        pyFindFrom s sq 0 ≤ 0 →
        cleanToolResult s = "✓ completed") := by
  have hcore := clean_command_core hC
  refine ⟨?_, ?_, ?_, ?_, ?_⟩
  · intro hmk
    rw [hcore]
    simp [commandCase, hmk]
  · intro q1 q2 hmk hq1 hq2 hlt
    rw [hcore]
    have ht : ((q1 : Int) + 1).toNat = q1 + 1 := by omega
    simp only [commandCase, hmk, if_true, hq1, ht, hq2]
    rw [if_pos (by exact_mod_cast hlt)]
    simp
  · intro q1 hmk hq1 hle
    rw [hcore]
    have ht : ((q1 : Int) + 1).toNat = q1 + 1 := by omega
    simp only [commandCase, hmk, if_true, hq1, ht]
    rw [if_neg (by omega)]
  · intro q2 hmk hq1 hq2 hpos
    rw [hcore]
    have ht : ((-1 : Int) + 1).toNat = 0 := by omega
    simp only [commandCase, hmk, if_true, hq1, ht, hq2]
    rw [if_pos (by omega)]
    simp
  · intro hmk hq1 hle
    rw [hcore]
    have ht : ((-1 : Int) + 1).toNat = 0 := by omega
    simp only [commandCase, hmk, if_true, hq1, ht]
    rw [if_neg (by omega)]

/-- C5 witness: spec scenario C — the `Command(update={'messages':
[ToolMessage(content='done', ...)]})` envelope yields preview `done`
(marker at 29, quotes at 49 and 54). -/
theorem clean_command_branch_amended_witness :
    cleanToolResult ("Command(update=\x7b" ++ sq ++ "messages" ++ sq ++
        ": [ToolMessage(content=" ++ sq ++ "done" ++ sq ++ ", ...)]\x7d)") = "done" := by
  have h := (clean_command_branch_amended
      ("Command(update=\x7b" ++ sq ++ "messages" ++ sq ++
        ": [ToolMessage(content=" ++ sq ++ "done" ++ sq ++ ", ...)]\x7d)")
      (by decide)).2.1 49 54 (by decide) (by decide) (by decide) (by decide)
  exact h.trans (by decide)

theorem done_not_mem_if (c : Prop) [Decidable c] (s : String) :
    Frame.done ∉ (if c then [Frame.content s] else []) := by
  split <;> simp

/-- No iteration of the loop body yields a done frame: the only
`yield json.dumps({"done": True})` is after the loop. -/
theorem stepEvent_no_done (d : Bool) (st : GenState) (e : UpEvent) :
    Frame.done ∉ (stepEvent d st e).2 := by
  cases e <;> simp only [stepEvent] <;> (repeat' split) <;> simp_all

theorem runEvents_no_done (d : Bool) (es : List UpEvent) (st : GenState) :
    Frame.done ∉ (runEvents d st es).2 := by
  induction es generalizing st with
  | nil => simp [runEvents]
  | cons e es ih =>
    simp only [runEvents, List.mem_append]
    rintro (h | h)
    · exact stepEvent_no_done d st e h
    · exact ih _ h

/-- C1 counterexample: the claim fails for an upstream sequence whose
iteration raises mid-stream.  `generate_stream` has no `try`/`except` around
its `async for`, so when `astream_events` raises after one token event the
generator has yielded three content frames and no done frame at all — not
exactly one. -/
theorem generate_stream_interrupted_no_done :
    generateStreamInterrupted true [UpEvent.chatModelStream (ChunkContent.str "hi")] =
      [Frame.content collapseHeader, Frame.content aiMark, Frame.content "hi"] ∧
    Frame.done ∉
      generateStreamInterrupted true [UpEvent.chatModelStream (ChunkContent.str "hi")] := by
  refine ⟨by decide, by decide⟩

/-- C1 amended: for every upstream event sequence that is consumed to
completion (its iteration not raising), the output of `generate_stream`
contains exactly one done frame and it is the last frame; when iteration
raises mid-stream the exception propagates and no done frame is emitted. -/
theorem generate_stream_done_exactly_once_last (d : Bool) (events : List UpEvent) :
    ∃ pre, generateStream d events = pre ++ [Frame.done] ∧ Frame.done ∉ pre := by
  refine ⟨(runEvents d initState events).2 ++
    ((if (runEvents d initState events).1.streaming_ai
      then [Frame.content "\n\n"] else []) ++
     (if (runEvents d initState events).1.collapse_open
      then [Frame.content "\n</details>\n\n"] else []) ++
     (if pyStrip (runEvents d initState events).1.current_ai_content ≠ ""
      then [Frame.content (runEvents d initState events).1.current_ai_content] else [])),
    ?_, ?_⟩
  · simp [generateStream, finalFrames, List.append_assoc]
  · simp only [List.mem_append]
    rintro (h | (h | h) | h)
    · exact runEvents_no_done d events initState h
    · exact done_not_mem_if _ _ h
    · exact done_not_mem_if _ _ h
    · exact done_not_mem_if _ _ h

/-- C3: the delegation stack evolves exactly as claimed — an
`on_tool_start` whose resolved name is `task` pushes its run identifier (no
other name changes the stack), an `on_tool_end` pops exactly when the run
identifier has a recorded start and equals the current top, and every other
event leaves the stack unchanged; hence pushes and pops are strictly
LIFO-nested and the stack length (a `Nat`) is never negative. -/
theorem subagent_stack_push_pop_characterization (d : Bool) (st : GenState) (e : UpEvent) :
    (stepEvent d st e).1.subagent_stack =
      (match e with
       | .toolStart runId name =>
         if name.getD "tool" = "task" then runId :: st.subagent_stack
         else st.subagent_stack
       | .toolEnd runId _ =>
         if (lookupAssoc st.tool_info runId).isSome ∧ st.subagent_stack.head? = some runId
         then st.subagent_stack.tail
         else st.subagent_stack
       | _ => st.subagent_stack) := by
  cases e with
  | chatModelStream chunk =>
    simp only [stepEvent]
    split
    · rfl
    · split <;> rfl
  | toolStart runId name =>
    by_cases ht : name.getD "tool" = "task" <;> cases d <;> simp [stepEvent, ht]
  | toolEnd runId output =>
    cases hl : lookupAssoc st.tool_info runId with
    | none => simp [stepEvent, hl]
    | some tool_name =>
      by_cases htop : st.subagent_stack.head? = some runId <;>
        cases d <;> simp [stepEvent, hl, htop]
  | otherEvent => simp [stepEvent]

/-- With `show_tool_details = False` one loop iteration yields nothing, the
display flags never change, and the token buffer only grows (the
`current_ai_content = ""` reset sits inside the `if show_tool_details`
block). -/
theorem stepEvent_no_details (st : GenState) (e : UpEvent) :
    (stepEvent false st e).2 = [] ∧
    (stepEvent false st e).1.streaming_ai = st.streaming_ai ∧
    (stepEvent false st e).1.collapse_open = st.collapse_open ∧
    (stepEvent false st e).1.current_ai_content =
      st.current_ai_content ++
        (match e with
         | .chatModelStream chunk => extract_text_content chunk
         | _ => "") := by
  cases e with
  | chatModelStream chunk =>
    simp only [stepEvent]
    split
    · next hc => simp [hc, strAppend_empty]
    · simp
  | toolStart runId name =>
    by_cases ht : name.getD "tool" = "task" <;> simp [stepEvent, ht, strAppend_empty]
  | toolEnd runId output =>
    cases hl : lookupAssoc st.tool_info runId with
    | none => simp [stepEvent, hl, strAppend_empty]
    | some tool_name =>
      by_cases htop : st.subagent_stack.head? = some runId <;>
        simp [stepEvent, hl, htop, strAppend_empty]
  | otherEvent => simp [stepEvent, strAppend_empty]

/-- The concatenation of all model-token text over a whole upstream
sequence. -/
def concatTokens : List UpEvent → String
  | [] => ""
  | .chatModelStream chunk :: es => extract_text_content chunk ++ concatTokens es
  | _ :: es => concatTokens es

theorem runEvents_no_details (es : List UpEvent) (st : GenState) :
    (runEvents false st es).2 = [] ∧
    (runEvents false st es).1.streaming_ai = st.streaming_ai ∧
    (runEvents false st es).1.collapse_open = st.collapse_open ∧
    (runEvents false st es).1.current_ai_content =
      st.current_ai_content ++ concatTokens es := by
  induction es generalizing st with
  | nil => simp [runEvents, concatTokens, strAppend_empty]
  | cons e es ih =>
    obtain ⟨hf, hs, hc, hcontent⟩ := stepEvent_no_details st e
    obtain ⟨ihf, ihs, ihc, ihcontent⟩ := ih (stepEvent false st e).1
    simp only [runEvents]
    refine ⟨by simp [hf, ihf], by simp [ihs, hs], by simp [ihc, hc], ?_⟩
    show (runEvents false (stepEvent false st e).1 es).1.current_ai_content = _
    rw [ihcontent, hcontent, strAppend_assoc]
    congr 1
    cases e <;> simp [concatTokens, strEmpty_append]

/-- C10: with `show_tool_details = False`, `generate_stream` emits at most
two frames for any upstream sequence: one optional content frame holding the
concatenation of every model token of the whole request — emitted only when
that text is not whitespace-only — followed by exactly one done frame; no
per-token, tool-result or collapse-markup frames appear. -/
theorem no_details_at_most_two_frames (events : List UpEvent) :
    generateStream false events =
      (if pyStrip (concatTokens events) ≠ ""
       then [Frame.content (concatTokens events)] else []) ++ [Frame.done] ∧
    (generateStream false events).length ≤ 2 := by
  obtain ⟨hf, hs, hc, hcontent⟩ := runEvents_no_details events initState
  have hcontent' : (runEvents false initState events).1.current_ai_content =
      concatTokens events := by
    rw [hcontent]
    exact strEmpty_append _
  have hs' : (runEvents false initState events).1.streaming_ai = false := hs
  have hc' : (runEvents false initState events).1.collapse_open = false := hc
  have hmain : generateStream false events =
      (if pyStrip (concatTokens events) ≠ ""
       then [Frame.content (concatTokens events)] else []) ++ [Frame.done] := by
    simp [generateStream, hf, finalFrames, hs', hc', hcontent']
  refine ⟨hmain, ?_⟩
  rw [hmain]
  split <;> simp

/-- C2 (spec-modelled, the typed-event translator is not under src/): when an
invocation-end event is processed for the run identifier at the top of the
delegation stack (the innermost active `task` delegation, with a recorded
start), the translator emits `agent_end` followed by `tool_end` for that same
run identifier, the `tool_end` carrying the normalized result of the
delegation. -/
theorem delegation_end_emits_agent_end_then_tool_end
    (st : TypedState) (runId rawOutput name : String)
    (hrec : lookupAssoc st.records runId = some name)
    (hname : name = "task")
    (htop : st.stack.head? = some runId) :
    (typedOnEnd st runId rawOutput).2 =
      [TypedEvent.agent_end runId st.stack.tail.length,
       TypedEvent.tool_end runId name (cleanToolResult rawOutput) st.stack.tail.length] := by
  simp [typedOnEnd, hrec, hname, htop]

/-- C2 witness: ending the delegation `r1` (the sole stack entry, recorded
with name `task`) emits `agent_end` then `tool_end` for `r1` with the
normalized result `ok` at depth 0. -/
theorem delegation_end_emits_agent_end_then_tool_end_witness :
    (typedOnEnd ⟨[("r1", "task")], ["r1"]⟩ "r1" "ok").2 =
      [TypedEvent.agent_end "r1" 0, TypedEvent.tool_end "r1" "task" "ok" 0] := by
  have h := delegation_end_emits_agent_end_then_tool_end
    ⟨[("r1", "task")], ["r1"]⟩ "r1" "ok" "task" (by decide) rfl (by decide)
  exact h.trans (by decide)

end DeepAgent
